import Mathlib

/-!
A shallow embedding of the room synchronization engine of the Sonolus
multiplayer server (src/multiplayer.ts, class MultiplayerRoom, together
with the types of src/types.ts).

Modelling choices:
* WebSocket handles are not part of the room state; a send to one user is
  recorded as an output event targeted at that user's profile id, and a
  broadcast is recorded as an output event with an optional excluded id.
  Every operation returns the new room state together with the list of
  output events it emitted, in emission order.
* Date.now() and Math.random(), read inside handleCommand when a round
  starts, are passed in as explicit inputs (`now`, `seed`).
* setTimeout / clearTimeout are modelled by a list `pendingTimers` of
  currently scheduled timer handles plus a counter `nextTimer` minting
  fresh handles; the field `forceFinishTimer` holds the handle stored by
  the class (possibly stale after a fire, exactly as in JS).  The timer
  callback firing is a separate operation (`timerFire`).
* The opaque level descriptor (Sil) and user ids (ServiceUserId) are
  modelled as natural numbers; profile carries id and display name.
* Static configuration fields that the engine never reads or changes
  (options, optionValues, reportUserOptions) are omitted; the title,
  already resolved to a string, is kept.
-/

/-- Room status: the RoomStatus union in src/types.ts. -/
inductive RoomStatus
  | selecting
  | preparing
  | playing
deriving DecidableEq, Repr

/-- Per-user status: the UserStatus union in src/types.ts. -/
inductive UserStatus
  | waiting
  | ready
  | skipped
  | playing
deriving DecidableEq, Repr

/-- Auto-exit policy: the union type of MultiplayerRoom.autoExit. -/
inductive AutoExit
  | off
  | pass
  | fullCombo
  | allPerfect
deriving DecidableEq, Repr

/-- A client-reported gameplay result (GameplayResult in src/types.ts).
Only arcadeScore is ever read by the room engine; the remaining client
fields (grade, accuracyScore, combo, ...) are opaque to it and omitted. -/
structure GameplayResult where
  arcadeScore : Int
deriving DecidableEq, Repr

/-- One entry of MultiplayerRoom.results (ResultEntry in src/types.ts). -/
structure ResultEntry where
  userId : Nat
  result : GameplayResult
  userName : String
deriving DecidableEq, Repr

/-- One scoreboard line (ScoreEntry in src/types.ts). -/
structure ScoreEntry where
  userId : Nat
  value : String
deriving DecidableEq, Repr

/-- A scoreboard section (ScoreboardSection in src/types.ts). -/
structure ScoreboardSection where
  title : String
  icon : String
  scores : List ScoreEntry
deriving DecidableEq, Repr

/-- The public payload of a user (RoomUser from the client protocol):
authentication blob and signature, both opaque strings. -/
structure RoomUser where
  authentication : String
  signature : String
deriving DecidableEq, Repr

/-- The verified profile handed over by the join handshake. -/
structure Profile where
  id : Nat
  name : String
deriving DecidableEq, Repr

/-- One element of MultiplayerRoom.users: the public payload, the profile
and the per-user status (the ws handle is identified by profile.id). -/
structure UserEntry where
  user : RoomUser
  profile : Profile
  status : UserStatus
deriving DecidableEq, Repr

/-- A level suggestion (Suggestion in src/types.ts). -/
structure Suggestion where
  userId : Nat
  level : Nat
deriving DecidableEq, Repr

/-- A level option entry (LevelOptionEntry in src/types.ts). -/
structure LevelOptionEntry where
  index : Nat
  value : Int
deriving DecidableEq, Repr

/-- A chat message; the field named type in src/types.ts is msgKind here. -/
structure ChatMessage where
  userId : Option Nat
  msgKind : String
  value : String
deriving DecidableEq, Repr

/-- The full-state snapshot carried by an update event (built by
MultiplayerRoom.sendUpdate). -/
structure Snapshot where
  title : String
  status : RoomStatus
  master : Option Nat
  lead : Option Nat
  allowOtherServers : Bool
  level : Option Nat
  levelOptions : List LevelOptionEntry
  autoExit : AutoExit
  isSuggestionsLocked : Bool
  suggestions : List Suggestion
  scoreboardDescription : String
  scoreboardSections : List ScoreboardSection
  results : List ResultEntry
  users : List RoomUser
  userStatuses : List (Nat × UserStatus)
deriving DecidableEq, Repr

/-- The tagged wire payloads emitted by the engine. -/
inductive EventPayload
  | addUser (user : RoomUser)
  | removeUser (user : RoomUser)
  | updateMaster (master : Option Nat)
  | updateLead (lead : Option Nat)
  | updateStatus (status : RoomStatus)
  | updateLevel (level : Option Nat)
  | updateSuggestions (suggestions : List Suggestion)
  | clearSuggestions
  | updateAutoExit (autoExit : AutoExit)
  | updateScoreboardSections (scoreboardSections : List ScoreboardSection)
  | addResult (result : ResultEntry)
  | updateUserStatus (userId : Nat) (status : UserStatus)
  | addChatMessage (message : ChatMessage)
  | startRound (state : String) (seed : Nat)
  | update (snapshot : Snapshot)
deriving DecidableEq, Repr

/-- An observable output of one engine operation: either a broadcast to
every connected user except an optional excluded id, or a direct send to
one user's socket. -/
inductive Event
  | broadcast (payload : EventPayload) (excludeUserId : Option Nat)
  | send (userId : Nat) (payload : EventPayload)
deriving DecidableEq, Repr

/-- Client commands understood by MultiplayerRoom.handleCommand (unknown
command types are ignored by the switch and are not modelled). -/
inductive Command
  | addChatMessage (message : ChatMessage)
  | updateUserStatus (status : UserStatus)
  | updateStatus (status : RoomStatus)
  | updateLevel (level : Nat)
  | addSuggestion (level : Nat)
  | clearSuggestions
  | updateAutoExit (autoExit : AutoExit)
  | updateMaster (master : Option Nat)
  | updateLead (lead : Option Nat)
  | resetScoreboard
  | startGameplay
  | finishGameplay (result : Option GameplayResult)
deriving DecidableEq, Repr

/-- The state of one MultiplayerRoom instance, plus the timer bookkeeping
of the runtime (pendingTimers, nextTimer). -/
structure MultiplayerRoom where
  name : String := ""
  title : String := ""
  status : RoomStatus := RoomStatus.selecting
  master : Option Nat := none
  lead : Option Nat := none
  allowOtherServers : Bool := true
  isSuggestionsLocked : Bool := false
  autoExit : AutoExit := AutoExit.off
  level : Option Nat := none
  levelOptions : List LevelOptionEntry := []
  suggestions : List Suggestion := []
  scoreboardDescription : String := ""
  scoreboardSections : List ScoreboardSection := []
  results : List ResultEntry := []
  users : List UserEntry := []
  forceFinishTimer : Option Nat := none
  pendingTimers : List Nat := []
  nextTimer : Nat := 0
deriving DecidableEq, Repr

/-- A freshly constructed room (the constructor sets name and title). -/
def initRoom (name : String) (title : String) : MultiplayerRoom :=
  { name := name, title := title }

/-- JS clearTimeout(h): the handle h is no longer pending. -/
def clearPending (h : Nat) (pending : List Nat) : List Nat :=
  pending.filter (fun x => x != h)

/-- Decimal digits of n, most significant first, exactly as JS
Number.prototype.toString renders a nonnegative integer.  The first
argument is structural fuel and is always supplied greater than n. -/
def decDigitsAux : Nat → Nat → List Nat
  | 0, _ => []
  | fuel + 1, n => if n < 10 then [n] else decDigitsAux fuel (n / 10) ++ [n % 10]

/-- Decimal rendering of a natural number, as JS string conversion. -/
def natToDec (n : Nat) : String :=
  String.mk ((decDigitsAux (n + 1) n).map (fun d => Char.ofNat (48 + d)))

/-- The opaque round identifier minted at round start: the JS expression
that concatenates round- with Date.now(). -/
def roundStateStr (now : Nat) : String :=
  "round-" ++ natToDec now

/-- MultiplayerRoom.sendUpdate: the full snapshot sent to one socket.
When a newUserEntry is supplied (the addUser path), the user list used
for the snapshot is users with the new entry appended. -/
def MultiplayerRoom.sendUpdate (room : MultiplayerRoom) (userId : Nat)
    (newUserEntry : Option UserEntry) : Event :=
  let allUsers :=
    match newUserEntry with
    | some e => room.users ++ [e]
    | none => room.users
  Event.send userId (EventPayload.update
    { title := room.title
      status := room.status
      master := room.master
      lead := room.lead
      allowOtherServers := room.allowOtherServers
      level := room.level
      levelOptions := room.levelOptions.enum.map
        (fun p => { index := p.1, value := p.2.value })
      autoExit := room.autoExit
      isSuggestionsLocked := room.isSuggestionsLocked
      suggestions := room.suggestions
      scoreboardDescription := room.scoreboardDescription
      scoreboardSections :=
        if room.scoreboardSections.length > 0 then room.scoreboardSections
        else [{ title := "#SCOREBOARD", icon := "", scores := [] }]
      results := room.results
      users := allUsers.map (fun u => u.user)
      userStatuses := allUsers.map (fun u => (u.profile.id, u.status)) })

/-- MultiplayerRoom.addUser. -/
def MultiplayerRoom.addUser (room : MultiplayerRoom) (user : RoomUser)
    (profile : Profile) : MultiplayerRoom × List Event :=
  let users0 :=
    if (room.users.find? (fun u => u.profile.id == profile.id)).isSome then
      room.users.filter (fun u => u.profile.id != profile.id)
    else room.users
  let newUserEntry : UserEntry :=
    { user := user, profile := profile, status := UserStatus.waiting }
  let masterChanged := room.master.isNone
  let leadChanged := room.lead.isNone
  let master := if masterChanged then some profile.id else room.master
  let lead := if leadChanged then some profile.id else room.lead
  let roomMid := { room with users := users0, master := master, lead := lead }
  let ev1 := roomMid.sendUpdate profile.id (some newUserEntry)
  let room1 := { roomMid with users := users0 ++ [newUserEntry] }
  let evs :=
    [ev1, Event.broadcast (EventPayload.addUser user) (some profile.id)]
    ++ (if masterChanged then
          [Event.broadcast (EventPayload.updateMaster master) (some profile.id)]
        else [])
    ++ (if leadChanged then
          [Event.broadcast (EventPayload.updateLead lead) (some profile.id)]
        else [])
  (room1, evs)

/-- MultiplayerRoom.removeUser.  findIndex plus splice removes the first
entry whose profile id matches, which is List.eraseP. -/
def MultiplayerRoom.removeUser (room : MultiplayerRoom) (userId : Nat) :
    MultiplayerRoom × List Event :=
  match room.users.find? (fun u => u.profile.id == userId) with
  | none => (room, [])
  | some removedEntry =>
    let users1 := room.users.eraseP (fun u => u.profile.id == userId)
    let masterMoved := room.master = some userId
    let leadMoved := room.lead = some userId
    let newHead : Option Nat :=
      match users1 with
      | [] => none
      | u :: _ => some u.profile.id
    let master := if masterMoved then newHead else room.master
    let lead := if leadMoved then newHead else room.lead
    let evs :=
      (if masterMoved then [Event.broadcast (EventPayload.updateMaster master) none] else [])
      ++ (if leadMoved then [Event.broadcast (EventPayload.updateLead lead) none] else [])
      ++ [Event.broadcast (EventPayload.removeUser removedEntry.user) none]
    ({ room with users := users1, master := master, lead := lead }, evs)

/-- The body of MultiplayerRoom.updateUserStatus: users.find mutates the
first entry whose profile id matches, if any. -/
def setStatusFirst (userId : Nat) (status : UserStatus) :
    List UserEntry → List UserEntry
  | [] => []
  | u :: rest =>
    if u.profile.id = userId then { u with status := status } :: rest
    else u :: setStatusFirst userId status rest

/-- MultiplayerRoom.updateUserStatus (private): sets the status of the
sender's entry when present, and broadcasts regardless. -/
def MultiplayerRoom.updateUserStatus (room : MultiplayerRoom) (userId : Nat)
    (status : UserStatus) : MultiplayerRoom × List Event :=
  ({ room with users := setStatusFirst userId status room.users },
   [Event.broadcast (EventPayload.updateUserStatus userId status) none])

/-- The comparator (a, b) => b.result.arcadeScore - a.result.arcadeScore
passed to Array.prototype.sort: a is placed no later than b exactly when
the score of a is at least the score of b. -/
def resultDescOrder (a b : ResultEntry) : Prop :=
  b.result.arcadeScore ≤ a.result.arcadeScore

instance : DecidableRel resultDescOrder :=
  fun a b => Int.decLe b.result.arcadeScore a.result.arcadeScore

instance : IsTotal ResultEntry resultDescOrder :=
  ⟨fun a b => (Int.le_total a.result.arcadeScore b.result.arcadeScore).symm⟩

instance : IsTrans ResultEntry resultDescOrder :=
  ⟨fun _ _ _ h1 h2 => le_trans h2 h1⟩

/-- Array.prototype.sort with the descending-score comparator: a stable
sort into non-increasing arcadeScore order. -/
def sortResultsDesc (l : List ResultEntry) : List ResultEntry :=
  l.insertionSort resultDescOrder

/-- MultiplayerRoom.updateScoreboard (private).  Array.prototype.sort
sorts this.results in place, so results is left sorted as well. -/
def MultiplayerRoom.updateScoreboard (room : MultiplayerRoom) : MultiplayerRoom :=
  let sorted := sortResultsDesc room.results
  { room with
    results := sorted
    scoreboardSections :=
      [{ title := "#SCOREBOARD"
         icon := "crown"
         scores := sorted.map
           (fun r => { userId := r.userId, value := toString r.result.arcadeScore }) }] }

/-- MultiplayerRoom.finishMatch (private): cancel the timer, persist the
round to the external match-history sink (no room state change),
recompute the scoreboard, return to selecting with every user waiting,
and send a full update to every connected user. -/
def MultiplayerRoom.finishMatch (room : MultiplayerRoom) :
    MultiplayerRoom × List Event :=
  let pending1 :=
    match room.forceFinishTimer with
    | some h => clearPending h room.pendingTimers
    | none => room.pendingTimers
  let room1 :=
    MultiplayerRoom.updateScoreboard
      { room with pendingTimers := pending1, forceFinishTimer := none }
  let room2 :=
    { room1 with
      status := RoomStatus.selecting
      users := room1.users.map (fun u => { u with status := UserStatus.waiting }) }
  (room2, room2.users.map (fun u => room2.sendUpdate u.profile.id none))

/-- The filter computed in the finishGameplay case: users still playing
without a recorded result. -/
def activePlayers (users : List UserEntry) (results : List ResultEntry) :
    List UserEntry :=
  users.filter (fun u =>
    u.status == UserStatus.playing
      && (results.find? (fun r => r.userId == u.profile.id)).isNone)

/-- MultiplayerRoom.handleCommand.  now and seed stand for the values of
Date.now() and Math.random() read when a round starts. -/
def MultiplayerRoom.handleCommand (room : MultiplayerRoom) (userId : Nat)
    (command : Command) (now : Nat) (seed : Nat) : MultiplayerRoom × List Event :=
  match command with
  | Command.addChatMessage message =>
    (room,
     [Event.broadcast
       (EventPayload.addChatMessage { message with userId := some userId }) none])
  | Command.updateUserStatus status => room.updateUserStatus userId status
  | Command.updateStatus status =>
    if room.master = some userId then
      let room1 := { room with status := status }
      let ev0 := Event.broadcast (EventPayload.updateStatus status) none
      if status = RoomStatus.playing then
        let room2 :=
          { room1 with
            results := []
            users := room1.users.map (fun u : UserEntry =>
              if u.status = UserStatus.skipped then { u with status := UserStatus.waiting }
              else u) }
        let pending1 :=
          match room2.forceFinishTimer with
          | some h => clearPending h room2.pendingTimers
          | none => room2.pendingTimers
        let room3 :=
          { room2 with
            pendingTimers := pending1 ++ [room2.nextTimer]
            forceFinishTimer := some room2.nextTimer
            nextTimer := room2.nextTimer + 1 }
        (room3,
         [ev0, Event.broadcast (EventPayload.startRound (roundStateStr now) seed) none])
      else if status = RoomStatus.selecting then
        let pending1 :=
          match room1.forceFinishTimer with
          | some h => clearPending h room1.pendingTimers
          | none => room1.pendingTimers
        ({ room1 with pendingTimers := pending1, forceFinishTimer := none }, [ev0])
      else
        (room1, [ev0])
    else (room, [])
  | Command.updateLevel level =>
    if room.lead = some userId ∧ room.status = RoomStatus.selecting then
      ({ room with level := some level, levelOptions := [] },
       [Event.broadcast (EventPayload.updateLevel (some level)) none])
    else (room, [])
  | Command.addSuggestion level =>
    if room.isSuggestionsLocked then (room, [])
    else
      let suggestions := room.suggestions ++ [{ userId := userId, level := level }]
      ({ room with suggestions := suggestions },
       [Event.broadcast (EventPayload.updateSuggestions suggestions) none])
  | Command.clearSuggestions =>
    if room.lead = some userId ∨ room.master = some userId then
      ({ room with suggestions := [] },
       [Event.broadcast EventPayload.clearSuggestions none])
    else (room, [])
  | Command.updateAutoExit autoExit =>
    if room.lead = some userId ∨ room.master = some userId then
      ({ room with autoExit := autoExit },
       [Event.broadcast (EventPayload.updateAutoExit autoExit) none])
    else (room, [])
  | Command.updateMaster master =>
    if room.master = some userId then
      ({ room with master := master },
       [Event.broadcast (EventPayload.updateMaster master) none])
    else (room, [])
  | Command.updateLead lead =>
    if room.master = some userId then
      ({ room with lead := lead },
       [Event.broadcast (EventPayload.updateLead lead) none])
    else (room, [])
  | Command.resetScoreboard =>
    if room.master = some userId then
      let sections : List ScoreboardSection :=
        [{ title := "#SCOREBOARD", icon := "crown", scores := [] }]
      ({ room with scoreboardSections := sections },
       [Event.broadcast (EventPayload.updateScoreboardSections sections) none])
    else (room, [])
  | Command.startGameplay => room.updateUserStatus userId UserStatus.playing
  | Command.finishGameplay result? =>
    match result? with
    | none => (room, [])
    | some result =>
      let userName :=
        match room.users.find? (fun u => u.profile.id == userId) with
        | some u => u.profile.name
        | none => "Unknown"
      let entry : ResultEntry := { userId := userId, result := result, userName := userName }
      let room1 := { room with results := room.results ++ [entry] }
      let ev0 := Event.broadcast (EventPayload.addResult entry) none
      if (activePlayers room1.users room1.results).length = 0 then
        let fm := room1.finishMatch
        (fm.1, ev0 :: fm.2)
      else
        match room1.users.find? (fun u => u.profile.id == userId) with
        | some _ => (room1, [ev0, room1.sendUpdate userId none])
        | none => (room1, [ev0])

/-- The force-finish timer callback firing: the handle is consumed from
the pending set, and the callback finishes the match only after
re-checking that the room is still playing.  Firing a handle that is not
pending (already canceled) is a no-op. -/
def MultiplayerRoom.timerFire (room : MultiplayerRoom) (h : Nat) :
    MultiplayerRoom × List Event :=
  if h ∈ room.pendingTimers then
    let room1 := { room with pendingTimers := clearPending h room.pendingTimers }
    if room1.status = RoomStatus.playing then room1.finishMatch
    else (room1, [])
  else (room, [])

/-- One external stimulus applied to a room. -/
inductive Op
  | addUser (user : RoomUser) (profile : Profile)
  | removeUser (userId : Nat)
  | command (userId : Nat) (cmd : Command) (now : Nat) (seed : Nat)
  | timerFire (h : Nat)
deriving DecidableEq, Repr

/-- Apply one stimulus. -/
def step (room : MultiplayerRoom) : Op → MultiplayerRoom × List Event
  | Op.addUser user profile => room.addUser user profile
  | Op.removeUser userId => room.removeUser userId
  | Op.command userId cmd now seed => room.handleCommand userId cmd now seed
  | Op.timerFire h => room.timerFire h

/-- Run a sequence of stimuli, collecting all emitted events in order. -/
def runEvents (room : MultiplayerRoom) : List Op → MultiplayerRoom × List Event
  | [] => (room, [])
  | op :: ops =>
    let s := step room op
    let rest := runEvents s.1 ops
    (rest.1, s.2 ++ rest.2)

/-- A room state is reachable when some sequence of stimuli produces it
from a freshly constructed room. -/
def Reachable (r : MultiplayerRoom) : Prop :=
  ∃ name title ops, (runEvents (initRoom name title) ops).1 = r

/-- The per-entry effect of the skipped-to-waiting reset performed when a
round starts. -/
def resetSkippedEntry (u : UserEntry) : UserEntry :=
  if u.status = UserStatus.skipped then { u with status := UserStatus.waiting } else u

/-- Extract the opaque round identifier from a startRound broadcast. -/
def startRoundState : Event → Option String
  | Event.broadcast (EventPayload.startRound st _) _ => some st
  | _ => none

/-- The event is a removeUser broadcast. -/
def isRemoveUserBroadcast (e : Event) : Prop :=
  ∃ ru ex, e = Event.broadcast (EventPayload.removeUser ru) ex

/-- The profile ids of a user list, in order. -/
def idsOf (l : List UserEntry) : List Nat :=
  l.map (fun u => u.profile.id)

/-- Authority references are sound: master and lead, when set, are ids of
currently present participants. -/
def RolesOk (r : MultiplayerRoom) : Prop :=
  (∀ m, r.master = some m → m ∈ idsOf r.users) ∧
  (∀ m, r.lead = some m → m ∈ idsOf r.users)

/-- The stimulus names a present participant whenever it reassigns
master or lead by id (the code applies the requested id unchecked, so
soundness of the references can only hold under this restriction). -/
def opRolesGuarded (r : MultiplayerRoom) : Op → Prop
  | Op.command _ (Command.updateMaster m) _ _ => ∀ x, m = some x → x ∈ idsOf r.users
  | Op.command _ (Command.updateLead m) _ _ => ∀ x, m = some x → x ∈ idsOf r.users
  | _ => True

/-- Reachability under stimuli whose master and lead reassignments name
present participants. -/
inductive ReachRoles : MultiplayerRoom → Prop
  | init (name title : String) : ReachRoles (initRoom name title)
  | next (r : MultiplayerRoom) (op : Op) :
      ReachRoles r → opRolesGuarded r op → ReachRoles (step r op).1

/-- Timer sanity: either no timer is pending, or exactly the stored
handle is pending. -/
def TimerOk (r : MultiplayerRoom) : Prop :=
  r.pendingTimers = [] ∨ ∃ h, r.forceFinishTimer = some h ∧ r.pendingTimers = [h]

/-- The stimulus is a round start: an updateStatus-to-playing command
issued by the current master. -/
def isRoundStart (room : MultiplayerRoom) : Op → Prop
  | Op.command uid (Command.updateStatus st) _ _ =>
      room.master = some uid ∧ st = RoomStatus.playing
  | _ => False

/-- Decimal value of a digit list, most significant first. -/
def digitsVal (l : List Nat) : Nat :=
  l.foldl (fun a d => a * 10 + d) 0

/-- Concrete fixtures used by witnesses and counterexamples. -/
def uA : RoomUser := { authentication := "authA", signature := "sigA" }

def pA : Profile := { id := 1, name := "A" }

def uB : RoomUser := { authentication := "authB", signature := "sigB" }

def pB : Profile := { id := 2, name := "B" }

def res100 : GameplayResult := { arcadeScore := 100 }

def chatHi : ChatMessage := { userId := none, msgKind := "quick", value := "hi" }

/-- A room with the single participant A, who is master and lead. -/
def demoRoomA : MultiplayerRoom :=
  (runEvents (initRoom "room" "Room") [Op.addUser uA pA]).1

/-- A room in a running round: A joined, became master, and started. -/
def playingRoomA : MultiplayerRoom :=
  (runEvents (initRoom "room" "Room")
    [Op.addUser uA pA, Op.command 1 (Command.updateStatus RoomStatus.playing) 100 7]).1

/-- A room in which user 1 reported finishGameplay twice in one round
while user 2 was still playing. -/
def dupResultsRoom : MultiplayerRoom :=
  (runEvents (initRoom "room" "Room")
    [Op.addUser uA pA, Op.addUser uB pB,
     Op.command 1 (Command.updateStatus RoomStatus.playing) 100 7,
     Op.command 1 Command.startGameplay 0 0,
     Op.command 2 Command.startGameplay 0 0,
     Op.command 1 (Command.finishGameplay (some res100)) 0 0,
     Op.command 1 (Command.finishGameplay (some res100)) 0 0]).1

/-- Two consecutive round starts whose Date.now() readings coincide. -/
def sameMillisOps : List Op :=
  [Op.addUser uA pA,
   Op.command 1 (Command.updateStatus RoomStatus.playing) 100 7,
   Op.command 1 (Command.updateStatus RoomStatus.selecting) 100 8,
   Op.command 1 (Command.updateStatus RoomStatus.playing) 100 9]

/-- C7: an updateLevel command from a sender who is not the current lead,
or issued while status is not selecting, leaves the room state entirely
unchanged and emits nothing; from the lead while selecting it sets level,
clears levelOptions and broadcasts updateLevel. -/
theorem C7_updateLevel_guard (room : MultiplayerRoom) (userId level now seed : Nat) :
    (¬(room.lead = some userId ∧ room.status = RoomStatus.selecting) →
      room.handleCommand userId (Command.updateLevel level) now seed = (room, [])) ∧
    (room.lead = some userId → room.status = RoomStatus.selecting →
      room.handleCommand userId (Command.updateLevel level) now seed =
        ({ room with level := some level, levelOptions := [] },
         [Event.broadcast (EventPayload.updateLevel (some level)) none])) := by
  constructor
  · intro h
    simp only [MultiplayerRoom.handleCommand, if_neg h]
  · intro h1 h2
    simp only [MultiplayerRoom.handleCommand, if_pos (And.intro h1 h2)]

/-- Witness for C7 at a concrete reachable room: sender 2 is not the
lead of demoRoomA, and the command is a silent no-op. -/
theorem C7_updateLevel_guard_witness :
    ¬(demoRoomA.lead = some 2 ∧ demoRoomA.status = RoomStatus.selecting) ∧
    demoRoomA.handleCommand 2 (Command.updateLevel 5) 0 0 = (demoRoomA, []) :=
  ⟨by decide, (C7_updateLevel_guard demoRoomA 2 5 0 0).1 (by decide)⟩

/-- C6: an updateStatus-to-playing command from the master clears the
results, resets exactly the skipped participants to waiting (profiles
and the other statuses untouched), and broadcasts updateStatus followed
by startRound, both unexcluded (to all participants). -/
theorem C6_round_start (room : MultiplayerRoom) (userId now seed : Nat)
    (hm : room.master = some userId) :
    ((room.handleCommand userId (Command.updateStatus RoomStatus.playing) now seed).1.results
       = []) ∧
    ((room.handleCommand userId (Command.updateStatus RoomStatus.playing) now seed).1.users
       = room.users.map resetSkippedEntry) ∧
    (∀ u : UserEntry,
      (resetSkippedEntry u).profile = u.profile ∧
      (resetSkippedEntry u).user = u.user ∧
      (u.status = UserStatus.skipped → (resetSkippedEntry u).status = UserStatus.waiting) ∧
      (u.status ≠ UserStatus.skipped → resetSkippedEntry u = u)) ∧
    ((room.handleCommand userId (Command.updateStatus RoomStatus.playing) now seed).2 =
      [Event.broadcast (EventPayload.updateStatus RoomStatus.playing) none,
       Event.broadcast (EventPayload.startRound (roundStateStr now) seed) none]) := by
  refine ⟨?_, ?_, ?_, ?_⟩
  · simp [MultiplayerRoom.handleCommand, hm]
  · simp only [MultiplayerRoom.handleCommand, if_pos hm]
    rfl
  · intro u
    unfold resetSkippedEntry
    by_cases h : u.status = UserStatus.skipped
    · simp [h]
    · simp [h]
  · simp [MultiplayerRoom.handleCommand, hm]

/-- Witness for C6 at the concrete room demoRoomA with master 1. -/
theorem C6_round_start_witness :
    demoRoomA.master = some 1 ∧
    (demoRoomA.handleCommand 1 (Command.updateStatus RoomStatus.playing) 100 7).1.results
      = [] :=
  ⟨by decide, (C6_round_start demoRoomA 1 100 7 (by decide)).1⟩

/-- C8: an addUser whose identity already has a participant entry leaves
exactly one entry for that identity (the new connection replaces the
old), and no removeUser event is broadcast for the replacement, so no
removeUser/addUser departure pair is observable (the single addUser
broadcast is the one every join emits). -/
theorem C8_reconnect_replaces (room : MultiplayerRoom) (user : RoomUser) (profile : Profile)
    (h : ∃ u ∈ room.users, u.profile.id = profile.id) :
    ((room.addUser user profile).1.users.countP
        (fun u => u.profile.id == profile.id) = 1) ∧
    (∀ e ∈ (room.addUser user profile).2, ¬ isRemoveUserBroadcast e) := by
  have hfind : (room.users.find? (fun u => u.profile.id == profile.id)).isSome := by
    rw [List.find?_isSome]
    obtain ⟨u, hu, hid⟩ := h
    exact ⟨u, hu, by simp [hid]⟩
  constructor
  · simp only [MultiplayerRoom.addUser, if_pos hfind]
    rw [List.countP_append]
    have h0 : (room.users.filter (fun u => u.profile.id != profile.id)).countP
        (fun u => u.profile.id == profile.id) = 0 := by
      rw [List.countP_eq_zero]
      intro a ha
      have := (List.mem_filter.mp ha).2
      simp only [bne_iff_ne, ne_eq] at this
      simp [this]
    rw [h0]
    simp
  · intro e he
    simp only [MultiplayerRoom.addUser, List.mem_append] at he
    rcases he with (he | he) | he
    · simp only [List.mem_cons, List.not_mem_nil, or_false] at he
      rcases he with rfl | rfl
      · simp [MultiplayerRoom.sendUpdate, isRemoveUserBroadcast]
      · simp [isRemoveUserBroadcast]
    · split at he
      · simp only [List.mem_cons, List.not_mem_nil, or_false] at he
        subst he
        simp [isRemoveUserBroadcast]
      · simp at he
    · split at he
      · simp only [List.mem_cons, List.not_mem_nil, or_false] at he
        subst he
        simp [isRemoveUserBroadcast]
      · simp at he

/-- Witness for C8: B reconnecting to a room that already contains B. -/
theorem C8_reconnect_replaces_witness :
    (∃ u ∈ (runEvents (initRoom "room" "Room") [Op.addUser uA pA, Op.addUser uB pB]).1.users,
       u.profile.id = pB.id) ∧
    ((runEvents (initRoom "room" "Room")
        [Op.addUser uA pA, Op.addUser uB pB]).1.addUser uB pB).1.users.countP
      (fun u => u.profile.id == pB.id) = 1 :=
  ⟨by decide,
   (C8_reconnect_replaces
     (runEvents (initRoom "room" "Room") [Op.addUser uA pA, Op.addUser uB pB]).1
     uB pB (by decide)).1⟩

/-- C10: after a reconnect of an identity that already has an entry, the
surviving entry for that identity has status waiting, whatever the old
status was, and therefore never counts as an active player in the
finishGameplay auto-finish check. -/
theorem C10_reconnect_resets_status (room : MultiplayerRoom) (user : RoomUser)
    (profile : Profile) (h : ∃ u ∈ room.users, u.profile.id = profile.id) :
    ∀ u ∈ (room.addUser user profile).1.users, u.profile.id = profile.id →
      u.status = UserStatus.waiting ∧
      ∀ results, u ∉ activePlayers (room.addUser user profile).1.users results := by
  have hfind : (room.users.find? (fun u => u.profile.id == profile.id)).isSome := by
    rw [List.find?_isSome]
    obtain ⟨u, hu, hid⟩ := h
    exact ⟨u, hu, by simp [hid]⟩
  intro u hu hid
  have hw : u.status = UserStatus.waiting := by
    simp only [MultiplayerRoom.addUser, if_pos hfind, List.mem_append] at hu
    rcases hu with hu | hu
    · have := (List.mem_filter.mp hu).2
      simp only [bne_iff_ne, ne_eq] at this
      exact absurd hid this
    · simp only [List.mem_cons, List.not_mem_nil, or_false] at hu
      subst hu
      rfl
  refine ⟨hw, ?_⟩
  intro results hmem
  have := (List.mem_filter.mp hmem).2
  rw [hw] at this
  simp at this

/-- Witness for C10: A reconnects to playingRoomA; the replacement entry
is waiting and excluded from the active-player filter. -/
theorem C10_reconnect_resets_status_witness :
    (∃ u ∈ playingRoomA.users, u.profile.id = pA.id) ∧
    ({ user := uA, profile := pA, status := UserStatus.waiting } : UserEntry).status
      = UserStatus.waiting ∧
    ({ user := uA, profile := pA, status := UserStatus.waiting } : UserEntry) ∉
      activePlayers (playingRoomA.addUser uA pA).1.users [] :=
  ⟨by decide,
   (C10_reconnect_resets_status playingRoomA uA pA (by decide)
     { user := uA, profile := pA, status := UserStatus.waiting } (by decide) (by decide)).1,
   (C10_reconnect_resets_status playingRoomA uA pA (by decide)
     { user := uA, profile := pA, status := UserStatus.waiting } (by decide) (by decide)).2 []⟩

/-- When no entry matches the id, the status write is a no-op. -/
theorem setStatusFirst_of_not_mem (userId : Nat) (status : UserStatus) :
    ∀ l : List UserEntry, (∀ u ∈ l, u.profile.id ≠ userId) →
      setStatusFirst userId status l = l := by
  intro l
  induction l with
  | nil => intro _; rfl
  | cons u rest ih =>
    intro h
    have hu := h u (List.mem_cons_self u rest)
    simp only [setStatusFirst, if_neg hu]
    rw [ih (fun v hv => h v (List.mem_cons_of_mem u hv))]

/-- The insertion sort modelling Array.prototype.sort is a permutation. -/
theorem sortResultsDesc_perm (l : List ResultEntry) : (sortResultsDesc l).Perm l :=
  List.perm_insertionSort resultDescOrder l

/-- finishMatch leaves results as the in-place sorted list. -/
theorem finishMatch_results (r : MultiplayerRoom) :
    r.finishMatch.1.results = sortResultsDesc r.results := rfl

/-- C4 amended: the four commands whose spec precondition is that the
sender has a participant entry are in fact not guarded at all.  From an
identity with no entry, addChatMessage still broadcasts the tagged
message, updateUserStatus and startGameplay still broadcast
updateUserStatus (the status write itself is a no-op), and
finishGameplay with a result records a result entry with user name
Unknown (up to the in-place sort of the auto-finish path) and emits at
least the addResult broadcast.  None of them is rejected silently. -/
theorem C4_unguarded_commands (room : MultiplayerRoom) (userId now seed : Nat)
    (h : ∀ u ∈ room.users, u.profile.id ≠ userId) :
    (∀ msg, room.handleCommand userId (Command.addChatMessage msg) now seed =
      (room,
       [Event.broadcast
         (EventPayload.addChatMessage { msg with userId := some userId }) none])) ∧
    (∀ st, room.handleCommand userId (Command.updateUserStatus st) now seed =
      (room, [Event.broadcast (EventPayload.updateUserStatus userId st) none])) ∧
    (room.handleCommand userId Command.startGameplay now seed =
      (room,
       [Event.broadcast (EventPayload.updateUserStatus userId UserStatus.playing) none])) ∧
    (∀ res : GameplayResult,
      ((room.handleCommand userId (Command.finishGameplay (some res)) now seed).1.results).Perm
        (room.results ++ [{ userId := userId, result := res, userName := "Unknown" }]) ∧
      (room.handleCommand userId (Command.finishGameplay (some res)) now seed).2 ≠ []) := by
  have hfind : room.users.find? (fun u => u.profile.id == userId) = none := by
    rw [List.find?_eq_none]
    intro u hu
    simp [h u hu]
  refine ⟨?_, ?_, ?_, ?_⟩
  · intro msg
    simp [MultiplayerRoom.handleCommand]
  · intro st
    simp only [MultiplayerRoom.handleCommand, MultiplayerRoom.updateUserStatus]
    rw [setStatusFirst_of_not_mem userId st room.users h]
  · simp only [MultiplayerRoom.handleCommand, MultiplayerRoom.updateUserStatus]
    rw [setStatusFirst_of_not_mem userId UserStatus.playing room.users h]
  · intro res
    simp only [MultiplayerRoom.handleCommand, hfind]
    constructor
    · split
      · rw [finishMatch_results]
        exact sortResultsDesc_perm _
      · exact List.Perm.refl _
    · split
      · simp
      · simp

/-- Witness for C4 amended: sender 2 has no entry in demoRoomA, yet the
chat command still broadcasts. -/
theorem C4_unguarded_commands_witness :
    (∀ u ∈ demoRoomA.users, u.profile.id ≠ 2) ∧
    demoRoomA.handleCommand 2 (Command.addChatMessage chatHi) 0 0 =
      (demoRoomA,
       [Event.broadcast
         (EventPayload.addChatMessage { chatHi with userId := some 2 }) none]) :=
  ⟨by decide, (C4_unguarded_commands demoRoomA 2 0 0 (by decide)).1 chatHi⟩

/-- Counterexample to C4 as stated: identity 2 has no participant entry
in demoRoomA, yet its addChatMessage is not rejected silently, since a
broadcast is produced. -/
theorem C4_counterexample :
    (∀ u ∈ demoRoomA.users, u.profile.id ≠ 2) ∧
    (demoRoomA.handleCommand 2 (Command.addChatMessage chatHi) 0 0).2 ≠ [] := by
  decide

/-- The remaining fields finishMatch rewrites: selecting status, every
user waiting, and the single sorted scoreboard section. -/
theorem finishMatch_fields (r : MultiplayerRoom) :
    r.finishMatch.1.status = RoomStatus.selecting ∧
    r.finishMatch.1.users
      = r.users.map (fun u => { u with status := UserStatus.waiting }) ∧
    r.finishMatch.1.scoreboardSections =
      [{ title := "#SCOREBOARD", icon := "crown",
         scores := (sortResultsDesc r.results).map
           (fun e => { userId := e.userId, value := toString e.result.arcadeScore }) }] :=
  ⟨rfl, rfl, rfl⟩

/-- C5: when every playing participant already has a recorded result, a
finishGameplay command carrying a result finishes the round at once (no
timeout needed): afterwards the status is selecting, every participant
is waiting, and the scoreboard is one single section whose entries come
from a list sorted into descending reported score; and the same
postcondition holds after every round finish (finishMatch), however it
was triggered. -/
theorem C5_auto_finish :
    (∀ (room : MultiplayerRoom) (userId now seed : Nat) (res : GameplayResult),
      (∀ u ∈ room.users, u.status = UserStatus.playing →
        ∃ e ∈ room.results, e.userId = u.profile.id) →
      ((room.handleCommand userId (Command.finishGameplay (some res)) now seed).1.status
          = RoomStatus.selecting ∧
       (∀ u ∈ (room.handleCommand userId (Command.finishGameplay (some res)) now seed).1.users,
          u.status = UserStatus.waiting) ∧
       (∃ l : List ResultEntry, List.Sorted resultDescOrder l ∧
          (room.handleCommand userId (Command.finishGameplay (some res)) now seed).1.scoreboardSections
            = [{ title := "#SCOREBOARD", icon := "crown",
                 scores := l.map
                   (fun e => { userId := e.userId, value := toString e.result.arcadeScore }) }]))) ∧
    (∀ room : MultiplayerRoom,
      room.finishMatch.1.status = RoomStatus.selecting ∧
      (∀ u ∈ room.finishMatch.1.users, u.status = UserStatus.waiting) ∧
      (∃ l : List ResultEntry, List.Sorted resultDescOrder l ∧
        room.finishMatch.1.scoreboardSections
          = [{ title := "#SCOREBOARD", icon := "crown",
               scores := l.map
                 (fun e => { userId := e.userId, value := toString e.result.arcadeScore }) }])) := by
  have hfm : ∀ room : MultiplayerRoom,
      room.finishMatch.1.status = RoomStatus.selecting ∧
      (∀ u ∈ room.finishMatch.1.users, u.status = UserStatus.waiting) ∧
      (∃ l : List ResultEntry, List.Sorted resultDescOrder l ∧
        room.finishMatch.1.scoreboardSections
          = [{ title := "#SCOREBOARD", icon := "crown",
               scores := l.map
                 (fun e => { userId := e.userId, value := toString e.result.arcadeScore }) }]) := by
    intro room
    obtain ⟨h1, h2, h3⟩ := finishMatch_fields room
    refine ⟨h1, ?_, ?_⟩
    · intro u hu
      rw [h2] at hu
      obtain ⟨v, _, rfl⟩ := List.mem_map.mp hu
      rfl
    · exact ⟨sortResultsDesc room.results, List.sorted_insertionSort _ _, h3⟩
  refine ⟨?_, hfm⟩
  intro room userId now seed res hall
  have hap : ∀ entry : ResultEntry,
      activePlayers room.users (room.results ++ [entry]) = [] := by
    intro entry
    unfold activePlayers
    rw [List.filter_eq_nil_iff]
    intro u hu
    by_cases hp : u.status = UserStatus.playing
    · obtain ⟨e, he, heid⟩ := hall u hu hp
      have : ((room.results ++ [entry]).find?
          (fun r => r.userId == u.profile.id)).isSome := by
        rw [List.find?_isSome]
        exact ⟨e, List.mem_append_left _ he, by simp [heid]⟩
      simp only [Bool.and_eq_true, not_and, Bool.not_eq_true]
      intro _
      cases hfind2 : (room.results ++ [entry]).find? (fun r => r.userId == u.profile.id) with
      | none =>
        rw [hfind2] at this
        simp at this
      | some v =>
        rfl
    · simp only [Bool.and_eq_true, not_and]
      intro hc
      exact absurd (by simpa using hc) hp
  simp only [MultiplayerRoom.handleCommand]
  rw [if_pos]
  · exact hfm _
  · rw [hap]
    rfl

/-- Witness for C5: in playingRoomA no participant is playing, so the
all-playing-have-results hypothesis holds vacuously and a single
finishGameplay ends the round at once. -/
theorem C5_auto_finish_witness :
    (∀ u ∈ playingRoomA.users, u.status = UserStatus.playing →
      ∃ e ∈ playingRoomA.results, e.userId = u.profile.id) ∧
    (playingRoomA.handleCommand 1 (Command.finishGameplay (some res100)) 0 0).1.status
      = RoomStatus.selecting :=
  ⟨by decide, (C5_auto_finish.1 playingRoomA 1 0 0 res100 (by decide)).1⟩

/-- C3 amended: results is reset to empty exactly on a round start (the
master's updateStatus-to-playing); every other stimulus either leaves
results unchanged up to the in-place sort performed on a round finish,
or appends one single entry (finishGameplay carrying a result); entries
are never dropped outside a round start.  Per-user uniqueness, however,
is not enforced (see the counterexample). -/
theorem C3_results_lifecycle (room : MultiplayerRoom) (op : Op) :
    (isRoundStart room op → (step room op).1.results = []) ∧
    (¬ isRoundStart room op →
      ((step room op).1.results.Perm room.results ∨
       ∃ e, (step room op).1.results.Perm (room.results ++ [e]))) := by
  cases op with
  | addUser user profile =>
    exact ⟨fun h => absurd h (by simp [isRoundStart]), fun _ => Or.inl (List.Perm.refl _)⟩
  | removeUser uid =>
    refine ⟨fun h => absurd h (by simp [isRoundStart]), fun _ => Or.inl ?_⟩
    cases hfind : room.users.find? (fun u => u.profile.id == uid) with
    | none =>
      simp only [step, MultiplayerRoom.removeUser, hfind]
      exact List.Perm.refl _
    | some v =>
      simp only [step, MultiplayerRoom.removeUser, hfind]
      exact List.Perm.refl _
  | timerFire h =>
    refine ⟨fun hX => absurd hX (by simp [isRoundStart]), fun _ => Or.inl ?_⟩
    simp only [step, MultiplayerRoom.timerFire]
    split
    · split
      · rw [finishMatch_results]
        exact sortResultsDesc_perm _
      · exact List.Perm.refl _
    · exact List.Perm.refl _
  | command uid cmd n s =>
    cases cmd with
    | addChatMessage m =>
      exact ⟨fun h => absurd h (by simp [isRoundStart]), fun _ => Or.inl (List.Perm.refl _)⟩
    | updateUserStatus st =>
      exact ⟨fun h => absurd h (by simp [isRoundStart]), fun _ => Or.inl (List.Perm.refl _)⟩
    | startGameplay =>
      exact ⟨fun h => absurd h (by simp [isRoundStart]), fun _ => Or.inl (List.Perm.refl _)⟩
    | updateLevel lvl =>
      refine ⟨fun h => absurd h (by simp [isRoundStart]), fun _ => Or.inl ?_⟩
      simp only [step, MultiplayerRoom.handleCommand]
      split
      · exact List.Perm.refl _
      · exact List.Perm.refl _
    | addSuggestion lvl =>
      refine ⟨fun h => absurd h (by simp [isRoundStart]), fun _ => Or.inl ?_⟩
      simp only [step, MultiplayerRoom.handleCommand]
      split
      · exact List.Perm.refl _
      · exact List.Perm.refl _
    | clearSuggestions =>
      refine ⟨fun h => absurd h (by simp [isRoundStart]), fun _ => Or.inl ?_⟩
      simp only [step, MultiplayerRoom.handleCommand]
      split
      · exact List.Perm.refl _
      · exact List.Perm.refl _
    | updateAutoExit ae =>
      refine ⟨fun h => absurd h (by simp [isRoundStart]), fun _ => Or.inl ?_⟩
      simp only [step, MultiplayerRoom.handleCommand]
      split
      · exact List.Perm.refl _
      · exact List.Perm.refl _
    | updateMaster m =>
      refine ⟨fun h => absurd h (by simp [isRoundStart]), fun _ => Or.inl ?_⟩
      simp only [step, MultiplayerRoom.handleCommand]
      split
      · exact List.Perm.refl _
      · exact List.Perm.refl _
    | updateLead m =>
      refine ⟨fun h => absurd h (by simp [isRoundStart]), fun _ => Or.inl ?_⟩
      simp only [step, MultiplayerRoom.handleCommand]
      split
      · exact List.Perm.refl _
      · exact List.Perm.refl _
    | resetScoreboard =>
      refine ⟨fun h => absurd h (by simp [isRoundStart]), fun _ => Or.inl ?_⟩
      simp only [step, MultiplayerRoom.handleCommand]
      split
      · exact List.Perm.refl _
      · exact List.Perm.refl _
    | updateStatus st =>
      by_cases hm : room.master = some uid
      · by_cases hp : st = RoomStatus.playing
        · subst hp
          constructor
          · intro _
            simp [step, MultiplayerRoom.handleCommand, hm]
          · intro hns
            exact absurd ⟨hm, rfl⟩ hns
        · constructor
          · intro hrs
            exact absurd hrs.2 hp
          · intro _
            left
            simp only [step, MultiplayerRoom.handleCommand, if_pos hm, if_neg hp]
            split
            · exact List.Perm.refl _
            · exact List.Perm.refl _
      · constructor
        · intro hrs
          exact absurd hrs.1 hm
        · intro _
          left
          simp only [step, MultiplayerRoom.handleCommand, if_neg hm]
          exact List.Perm.refl _
    | finishGameplay r? =>
      refine ⟨fun h => absurd h (by simp [isRoundStart]), fun _ => ?_⟩
      cases r? with
      | none => exact Or.inl (List.Perm.refl _)
      | some res =>
        right
        cases hf : room.users.find? (fun u => u.profile.id == uid) with
        | some v =>
          simp only [step, MultiplayerRoom.handleCommand, hf]
          split
          · refine ⟨{ userId := uid, result := res, userName := v.profile.name }, ?_⟩
            rw [finishMatch_results]
            exact sortResultsDesc_perm _
          · exact ⟨_, List.Perm.refl _⟩
        | none =>
          simp only [step, MultiplayerRoom.handleCommand, hf]
          split
          · refine ⟨{ userId := uid, result := res, userName := "Unknown" }, ?_⟩
            rw [finishMatch_results]
            exact sortResultsDesc_perm _
          · exact ⟨_, List.Perm.refl _⟩

/-- Witness for C3 amended at a concrete stimulus: the master's round
start on demoRoomA clears results. -/
theorem C3_results_lifecycle_witness :
    isRoundStart demoRoomA (Op.command 1 (Command.updateStatus RoomStatus.playing) 100 7) ∧
    (step demoRoomA (Op.command 1 (Command.updateStatus RoomStatus.playing) 100 7)).1.results
      = [] :=
  ⟨⟨by decide, rfl⟩,
   (C3_results_lifecycle demoRoomA
     (Op.command 1 (Command.updateStatus RoomStatus.playing) 100 7)).1 ⟨by decide, rfl⟩⟩

/-- Counterexample to C3 as stated: dupResultsRoom is reachable, and its
results hold two entries for userId 1, because the second finishGameplay
of the same identity within one round is recorded again. -/
theorem C3_counterexample :
    Reachable dupResultsRoom ∧ dupResultsRoom.results.countP (fun e => e.userId == 1) = 2 :=
  ⟨⟨"room", "Room",
    [Op.addUser uA pA, Op.addUser uB pB,
     Op.command 1 (Command.updateStatus RoomStatus.playing) 100 7,
     Op.command 1 Command.startGameplay 0 0,
     Op.command 2 Command.startGameplay 0 0,
     Op.command 1 (Command.finishGameplay (some res100)) 0 0,
     Op.command 1 (Command.finishGameplay (some res100)) 0 0], rfl⟩,
   by decide⟩

/-- finishMatch clears the stored handle and removes it from the
pending set. -/
theorem finishMatch_pending (r : MultiplayerRoom) :
    r.finishMatch.1.forceFinishTimer = none ∧
    r.finishMatch.1.pendingTimers =
      (match r.forceFinishTimer with
       | some t => clearPending t r.pendingTimers
       | none => r.pendingTimers) :=
  ⟨rfl, rfl⟩

/-- Under the timer invariant, clearing the stored handle empties the
pending set. -/
theorem cleared_of_timerOk (r : MultiplayerRoom) (h : TimerOk r) :
    (match r.forceFinishTimer with
     | some t => clearPending t r.pendingTimers
     | none => r.pendingTimers) = [] := by
  rcases h with hnil | ⟨t, hstore, hpend⟩
  · rw [hnil]
    cases r.forceFinishTimer <;> simp [clearPending]
  · rw [hstore, hpend]
    simp [clearPending]

/-- Under the timer invariant, finishMatch leaves no pending timer. -/
theorem timerOk_finishMatch (r : MultiplayerRoom) (h : TimerOk r) :
    r.finishMatch.1.pendingTimers = [] := by
  rw [(finishMatch_pending r).2]
  exact cleared_of_timerOk r h

/-- Every stimulus preserves the timer invariant. -/
theorem timerOk_step (r : MultiplayerRoom) (op : Op) (h : TimerOk r) :
    TimerOk (step r op).1 := by
  cases op with
  | addUser user profile => exact h
  | removeUser uid =>
    cases hfind : r.users.find? (fun u => u.profile.id == uid) with
    | none =>
      simp only [step, MultiplayerRoom.removeUser, hfind]
      exact h
    | some v =>
      simp only [step, MultiplayerRoom.removeUser, hfind]
      exact h
  | timerFire t =>
    simp only [step, MultiplayerRoom.timerFire]
    split
    · have h1 : TimerOk { r with pendingTimers := clearPending t r.pendingTimers } := by
        rcases h with hnil | ⟨t0, hstore, hpend⟩
        · left
          show clearPending t r.pendingTimers = []
          rw [hnil]
          rfl
        · by_cases ht : t0 = t
          · left
            show clearPending t r.pendingTimers = []
            rw [hpend, ht]
            simp [clearPending]
          · right
            refine ⟨t0, hstore, ?_⟩
            show clearPending t r.pendingTimers = [t0]
            rw [hpend]
            simp [clearPending, ht]
      split
      · exact Or.inl (timerOk_finishMatch _ h1)
      · exact h1
    · exact h
  | command uid cmd n s =>
    cases cmd with
    | addChatMessage m => exact h
    | updateUserStatus st => exact h
    | startGameplay => exact h
    | updateLevel lvl =>
      simp only [step, MultiplayerRoom.handleCommand]
      split
      · exact h
      · exact h
    | addSuggestion lvl =>
      simp only [step, MultiplayerRoom.handleCommand]
      split
      · exact h
      · exact h
    | clearSuggestions =>
      simp only [step, MultiplayerRoom.handleCommand]
      split
      · exact h
      · exact h
    | updateAutoExit ae =>
      simp only [step, MultiplayerRoom.handleCommand]
      split
      · exact h
      · exact h
    | updateMaster m =>
      simp only [step, MultiplayerRoom.handleCommand]
      split
      · exact h
      · exact h
    | updateLead m =>
      simp only [step, MultiplayerRoom.handleCommand]
      split
      · exact h
      · exact h
    | resetScoreboard =>
      simp only [step, MultiplayerRoom.handleCommand]
      split
      · exact h
      · exact h
    | updateStatus st =>
      by_cases hm : r.master = some uid
      · by_cases hp : st = RoomStatus.playing
        · subst hp
          simp only [step, MultiplayerRoom.handleCommand, if_pos hm, if_pos rfl]
          right
          refine ⟨r.nextTimer, rfl, ?_⟩
          show (match r.forceFinishTimer with
                | some t => clearPending t r.pendingTimers
                | none => r.pendingTimers) ++ [r.nextTimer] = [r.nextTimer]
          rw [cleared_of_timerOk r h]
          rfl
        · by_cases hs : st = RoomStatus.selecting
          · subst hs
            simp only [step, MultiplayerRoom.handleCommand, if_pos hm, if_neg hp, if_pos rfl]
            left
            show (match r.forceFinishTimer with
                  | some t => clearPending t r.pendingTimers
                  | none => r.pendingTimers) = []
            exact cleared_of_timerOk r h
          · simp only [step, MultiplayerRoom.handleCommand, if_pos hm, if_neg hp, if_neg hs]
            exact h
      · simp only [step, MultiplayerRoom.handleCommand, if_neg hm]
        exact h
    | finishGameplay r? =>
      cases r? with
      | none => exact h
      | some res =>
        cases hf : r.users.find? (fun u => u.profile.id == uid) with
        | some v =>
          simp only [step, MultiplayerRoom.handleCommand, hf]
          split
          · exact Or.inl (timerOk_finishMatch _ h)
          · exact h
        | none =>
          simp only [step, MultiplayerRoom.handleCommand, hf]
          split
          · exact Or.inl (timerOk_finishMatch _ h)
          · exact h

/-- C1 amended: in every reachable room state at most one timer is
pending; the timer is canceled by the master's updateStatus to selecting
and by every round finish.  An updateStatus that leaves playing for
preparing, however, does not cancel it (see the counterexample); the
fire-time status re-check then keeps the stale timer from finishing
anything. -/
theorem C1_timer_invariant (r : MultiplayerRoom) (hr : Reachable r) :
    r.pendingTimers.length ≤ 1 ∧
    (∀ uid now seed, r.master = some uid →
      (r.handleCommand uid (Command.updateStatus RoomStatus.selecting) now seed).1.pendingTimers
        = []) ∧
    r.finishMatch.1.pendingTimers = [] := by
  have hrun : ∀ (ops : List Op) (r0 : MultiplayerRoom),
      TimerOk r0 → TimerOk (runEvents r0 ops).1 := by
    intro ops
    induction ops with
    | nil => intro r0 h; exact h
    | cons op rest ih =>
      intro r0 h
      exact ih _ (timerOk_step r0 op h)
  obtain ⟨name, title, ops, hops⟩ := hr
  have hok : TimerOk r := by
    rw [← hops]
    exact hrun ops (initRoom name title) (Or.inl rfl)
  refine ⟨?_, ?_, timerOk_finishMatch r hok⟩
  · rcases hok with hnil | ⟨t, _, hpend⟩
    · rw [hnil]
      simp
    · rw [hpend]
      simp
  · intro uid now seed hm
    simp only [MultiplayerRoom.handleCommand, if_pos hm]
    rw [if_neg (by simp)]
    rw [if_pos trivial]
    show (match r.forceFinishTimer with
          | some t => clearPending t r.pendingTimers
          | none => r.pendingTimers) = []
    exact cleared_of_timerOk r hok

/-- Witness for C1 at the concrete reachable state playingRoomA, which
has exactly the one armed timer. -/
theorem C1_timer_invariant_witness :
    Reachable playingRoomA ∧ playingRoomA.pendingTimers.length ≤ 1 :=
  ⟨⟨"room", "Room",
    [Op.addUser uA pA, Op.command 1 (Command.updateStatus RoomStatus.playing) 100 7], rfl⟩,
   (C1_timer_invariant playingRoomA
     ⟨"room", "Room",
      [Op.addUser uA pA, Op.command 1 (Command.updateStatus RoomStatus.playing) 100 7],
      rfl⟩).1⟩

/-- Counterexample to C1 as stated: playingRoomA is reachable, playing,
with a pending timer; the master's updateStatus to preparing moves
status out of playing yet leaves the pending timer exactly as it was,
so the timer is not canceled as part of that transition. -/
theorem C1_counterexample :
    Reachable playingRoomA ∧
    playingRoomA.status = RoomStatus.playing ∧
    playingRoomA.master = some 1 ∧
    playingRoomA.pendingTimers ≠ [] ∧
    (playingRoomA.handleCommand 1 (Command.updateStatus RoomStatus.preparing) 0 0).1.status
      ≠ RoomStatus.playing ∧
    (playingRoomA.handleCommand 1 (Command.updateStatus RoomStatus.preparing) 0 0).1.pendingTimers
      = playingRoomA.pendingTimers :=
  ⟨⟨"room", "Room",
    [Op.addUser uA pA, Op.command 1 (Command.updateStatus RoomStatus.playing) 100 7], rfl⟩,
   by decide, by decide, by decide, by decide, by decide⟩

/-- A map that keeps profiles keeps the id list. -/
theorem idsOf_map_profile (f : UserEntry → UserEntry)
    (hf : ∀ u, (f u).profile = u.profile) (l : List UserEntry) :
    idsOf (l.map f) = idsOf l := by
  simp only [idsOf, List.map_map]
  exact List.map_congr_left fun u _ => by rw [Function.comp_apply, hf]

/-- Writing one status keeps the id list. -/
theorem idsOf_setStatusFirst (userId : Nat) (status : UserStatus) :
    ∀ l : List UserEntry, idsOf (setStatusFirst userId status l) = idsOf l := by
  intro l
  induction l with
  | nil => rfl
  | cons u rest ih =>
    simp only [setStatusFirst]
    split
    · rfl
    · simp only [idsOf, List.map_cons]
      have ih2 : List.map (fun u : UserEntry => u.profile.id) (setStatusFirst userId status rest)
          = List.map (fun u : UserEntry => u.profile.id) rest := ih
      rw [ih2]

/-- Ids different from the removed one survive the replacement filter. -/
theorem mem_idsOf_filter (m pid : Nat) :
    ∀ l : List UserEntry, m ∈ idsOf l → m ≠ pid →
      m ∈ idsOf (l.filter (fun u => u.profile.id != pid)) := by
  intro l
  induction l with
  | nil => intro h _; exact absurd h (List.not_mem_nil m)
  | cons u rest ih =>
    intro h hne
    simp only [idsOf, List.map_cons, List.mem_cons] at h
    rcases h with rfl | h
    · rw [List.filter_cons, if_pos (by simpa using hne)]
      simp [idsOf]
    · rw [List.filter_cons]
      split
      · simp only [idsOf, List.map_cons, List.mem_cons]
        exact Or.inr (ih h hne)
      · exact ih h hne

/-- Ids different from the removed one survive the splice. -/
theorem mem_idsOf_eraseP (m uid : Nat) :
    ∀ l : List UserEntry, m ∈ idsOf l → m ≠ uid →
      m ∈ idsOf (l.eraseP (fun u => u.profile.id == uid)) := by
  intro l
  induction l with
  | nil => intro h _; exact absurd h (List.not_mem_nil m)
  | cons u rest ih =>
    intro h hne
    simp only [idsOf, List.map_cons, List.mem_cons] at h
    rw [List.eraseP_cons]
    rcases h with rfl | h
    · have hbe : (u.profile.id == uid) = false := by simpa using hne
      rw [hbe]
      simp [idsOf]
    · cases hbe : (u.profile.id == uid)
      · show m ∈ idsOf (u :: List.eraseP (fun u => u.profile.id == uid) rest)
        simp only [idsOf, List.map_cons, List.mem_cons]
        exact Or.inr (ih h hne)
      · show m ∈ idsOf rest
        exact h

/-- The id list of the finish-path user reset. -/
theorem idsOf_finishMatch (r : MultiplayerRoom) :
    idsOf r.finishMatch.1.users = idsOf r.users := by
  rw [(finishMatch_fields r).2.1]
  exact idsOf_map_profile
    (fun u => { u with status := UserStatus.waiting }) (fun u => rfl) r.users

/-- finishMatch does not move the authority roles. -/
theorem finishMatch_roles (r : MultiplayerRoom) :
    r.finishMatch.1.master = r.master ∧ r.finishMatch.1.lead = r.lead :=
  ⟨rfl, rfl⟩

/-- finishMatch preserves role soundness. -/
theorem rolesOk_finishMatch (r : MultiplayerRoom) (h : RolesOk r) :
    RolesOk r.finishMatch.1 := by
  constructor
  · intro m hm
    rw [idsOf_finishMatch]
    exact h.1 m (by rw [← (finishMatch_roles r).1]; exact hm)
  · intro m hm
    rw [idsOf_finishMatch]
    exact h.2 m (by rw [← (finishMatch_roles r).2]; exact hm)

/-- Every stimulus whose role reassignments name present participants
preserves role soundness. -/
theorem rolesOk_step (r : MultiplayerRoom) (op : Op) (h : RolesOk r)
    (hg : opRolesGuarded r op) : RolesOk (step r op).1 := by
  cases op with
  | addUser user profile =>
    have husers : ∀ m, m ∈ idsOf r.users ∨ m = profile.id →
        m ∈ idsOf (r.addUser user profile).1.users := by
      intro m hm
      show m ∈ idsOf
        ((if (r.users.find? (fun u => u.profile.id == profile.id)).isSome then
            r.users.filter (fun u => u.profile.id != profile.id)
          else r.users) ++
          [{ user := user, profile := profile, status := UserStatus.waiting }])
      simp only [idsOf, List.map_append, List.mem_append]
      rcases hm with hm | rfl
      · by_cases hid : m = profile.id
        · right
          simp [hid]
        · left
          split
          · exact mem_idsOf_filter m profile.id r.users hm hid
          · exact hm
      · right
        simp
    constructor
    · intro m hm
      cases hmast : r.master with
      | none =>
        have hpm : profile.id = m := by
          have hx := hm
          simp only [step, MultiplayerRoom.addUser, hmast] at hx
          simpa using hx
        exact husers m (Or.inr hpm.symm)
      | some m0 =>
        have hmm : m0 = m := by
          have hx := hm
          simp only [step, MultiplayerRoom.addUser, hmast] at hx
          simpa using hx
        subst hmm
        exact husers m0 (Or.inl (h.1 m0 hmast))
    · intro m hm
      cases hlead : r.lead with
      | none =>
        have hpm : profile.id = m := by
          have hx := hm
          simp only [step, MultiplayerRoom.addUser, hlead] at hx
          simpa using hx
        exact husers m (Or.inr hpm.symm)
      | some m0 =>
        have hmm : m0 = m := by
          have hx := hm
          simp only [step, MultiplayerRoom.addUser, hlead] at hx
          simpa using hx
        subst hmm
        exact husers m0 (Or.inl (h.2 m0 hlead))
  | removeUser uid =>
    cases hfind : r.users.find? (fun u => u.profile.id == uid) with
    | none =>
      simp only [step, MultiplayerRoom.removeUser, hfind]
      exact h
    | some v =>
      constructor
      · intro m hm
        simp only [step, MultiplayerRoom.removeUser, hfind] at hm ⊢
        show m ∈ idsOf (r.users.eraseP (fun u => u.profile.id == uid))
        by_cases hmv : r.master = some uid
        · rw [if_pos hmv] at hm
          cases hus : r.users.eraseP (fun u => u.profile.id == uid) with
          | nil =>
            rw [hus] at hm
            exact absurd hm (by simp)
          | cons u0 rest =>
            rw [hus] at hm
            have hid : u0.profile.id = m := by simpa using hm
            simp [idsOf, ← hid]
        · rw [if_neg hmv] at hm
          have hne : m ≠ uid := by
            intro hEq
            subst hEq
            exact hmv hm
          exact mem_idsOf_eraseP m uid r.users (h.1 m hm) hne
      · intro m hm
        simp only [step, MultiplayerRoom.removeUser, hfind] at hm ⊢
        show m ∈ idsOf (r.users.eraseP (fun u => u.profile.id == uid))
        by_cases hmv : r.lead = some uid
        · rw [if_pos hmv] at hm
          cases hus : r.users.eraseP (fun u => u.profile.id == uid) with
          | nil =>
            rw [hus] at hm
            exact absurd hm (by simp)
          | cons u0 rest =>
            rw [hus] at hm
            have hid : u0.profile.id = m := by simpa using hm
            simp [idsOf, ← hid]
        · rw [if_neg hmv] at hm
          have hne : m ≠ uid := by
            intro hEq
            subst hEq
            exact hmv hm
          exact mem_idsOf_eraseP m uid r.users (h.2 m hm) hne
  | timerFire t =>
    simp only [step, MultiplayerRoom.timerFire]
    split
    · split
      · exact rolesOk_finishMatch _ h
      · exact h
    · exact h
  | command uid cmd n s =>
    cases cmd with
    | addChatMessage m0 => exact h
    | updateUserStatus st =>
      refine ⟨fun m hm => ?_, fun m hm => ?_⟩
      · exact (idsOf_setStatusFirst uid st r.users).symm ▸ h.1 m hm
      · exact (idsOf_setStatusFirst uid st r.users).symm ▸ h.2 m hm
    | startGameplay =>
      refine ⟨fun m hm => ?_, fun m hm => ?_⟩
      · exact (idsOf_setStatusFirst uid UserStatus.playing r.users).symm ▸ h.1 m hm
      · exact (idsOf_setStatusFirst uid UserStatus.playing r.users).symm ▸ h.2 m hm
    | updateLevel lvl =>
      simp only [step, MultiplayerRoom.handleCommand]
      split
      · exact h
      · exact h
    | addSuggestion lvl =>
      simp only [step, MultiplayerRoom.handleCommand]
      split
      · exact h
      · exact h
    | clearSuggestions =>
      simp only [step, MultiplayerRoom.handleCommand]
      split
      · exact h
      · exact h
    | updateAutoExit ae =>
      simp only [step, MultiplayerRoom.handleCommand]
      split
      · exact h
      · exact h
    | resetScoreboard =>
      simp only [step, MultiplayerRoom.handleCommand]
      split
      · exact h
      · exact h
    | updateMaster m1 =>
      by_cases hm0 : r.master = some uid
      · simp only [step, MultiplayerRoom.handleCommand, if_pos hm0]
        refine ⟨fun m hm => ?_, fun m hm => ?_⟩
        · exact hg m hm
        · exact h.2 m hm
      · simp only [step, MultiplayerRoom.handleCommand, if_neg hm0]
        exact h
    | updateLead m1 =>
      by_cases hm0 : r.master = some uid
      · simp only [step, MultiplayerRoom.handleCommand, if_pos hm0]
        refine ⟨fun m hm => ?_, fun m hm => ?_⟩
        · exact h.1 m hm
        · exact hg m hm
      · simp only [step, MultiplayerRoom.handleCommand, if_neg hm0]
        exact h
    | updateStatus st =>
      by_cases hm0 : r.master = some uid
      · by_cases hp : st = RoomStatus.playing
        · subst hp
          simp only [step, MultiplayerRoom.handleCommand, if_pos hm0, if_pos rfl]
          have heq := idsOf_map_profile
            (fun u : UserEntry =>
              if u.status = UserStatus.skipped then { u with status := UserStatus.waiting }
              else u)
            (fun u => by by_cases hs : u.status = UserStatus.skipped <;> simp [hs])
            r.users
          refine ⟨fun m hm => ?_, fun m hm => ?_⟩
          · exact heq.symm ▸ h.1 m hm
          · exact heq.symm ▸ h.2 m hm
        · by_cases hs : st = RoomStatus.selecting
          · subst hs
            simp only [step, MultiplayerRoom.handleCommand, if_pos hm0, if_neg hp,
              if_pos rfl]
            exact h
          · simp only [step, MultiplayerRoom.handleCommand, if_pos hm0, if_neg hp,
              if_neg hs]
            exact h
      · simp only [step, MultiplayerRoom.handleCommand, if_neg hm0]
        exact h
    | finishGameplay r? =>
      cases r? with
      | none => exact h
      | some res =>
        cases hf : r.users.find? (fun u => u.profile.id == uid) with
        | some v =>
          simp only [step, MultiplayerRoom.handleCommand, hf]
          split
          · exact rolesOk_finishMatch _ h
          · exact h
        | none =>
          simp only [step, MultiplayerRoom.handleCommand, hf]
          split
          · exact rolesOk_finishMatch _ h
          · exact h

/-- C2 amended: along every run in which master and lead reassignments
name present participants (updateMaster and updateLead apply whatever id
the client supplies, so the unrestricted claim fails), master and lead
always reference an id with a current participant entry, and both are
unset whenever the room is empty. -/
theorem C2_roles_sound (r : MultiplayerRoom) (hr : ReachRoles r) :
    (∀ m, r.master = some m → m ∈ idsOf r.users) ∧
    (∀ m, r.lead = some m → m ∈ idsOf r.users) ∧
    (r.users = [] → r.master = none ∧ r.lead = none) := by
  have hok : RolesOk r := by
    induction hr with
    | init name title =>
      exact And.intro (fun m hm => nomatch hm) (fun m hm => nomatch hm)
    | next r0 op hr0 hg ih => exact rolesOk_step r0 op ih hg
  refine ⟨hok.1, hok.2, ?_⟩
  intro hemp
  constructor
  · cases hmast : r.master with
    | none => rfl
    | some m =>
      have := hok.1 m hmast
      rw [hemp] at this
      exact absurd this (List.not_mem_nil m)
  · cases hlead : r.lead with
    | none => rfl
    | some m =>
      have := hok.2 m hlead
      rw [hemp] at this
      exact absurd this (List.not_mem_nil m)

/-- Witness for C2 amended: after the first join, master 1 is a present
participant. -/
theorem C2_roles_sound_witness :
    ReachRoles demoRoomA ∧ demoRoomA.master = some 1 ∧ 1 ∈ idsOf demoRoomA.users := by
  have hh : ReachRoles demoRoomA :=
    ReachRoles.next (initRoom "room" "Room") (Op.addUser uA pA)
      (ReachRoles.init "room" "Room") trivial
  exact ⟨hh, by decide, (C2_roles_sound demoRoomA hh).1 1 (by decide)⟩

/-- Counterexample to C2 as stated: from demoRoomA the master can
reassign master to id 2, which has no participant entry, so in the
resulting reachable state master references an absent user. -/
theorem C2_counterexample :
    Reachable (runEvents (initRoom "room" "Room")
      [Op.addUser uA pA, Op.command 1 (Command.updateMaster (some 2)) 0 0]).1 ∧
    (runEvents (initRoom "room" "Room")
      [Op.addUser uA pA, Op.command 1 (Command.updateMaster (some 2)) 0 0]).1.master
      = some 2 ∧
    ∀ u ∈ (runEvents (initRoom "room" "Room")
      [Op.addUser uA pA, Op.command 1 (Command.updateMaster (some 2)) 0 0]).1.users,
      u.profile.id ≠ 2 :=
  ⟨⟨"room", "Room",
    [Op.addUser uA pA, Op.command 1 (Command.updateMaster (some 2)) 0 0], rfl⟩,
   by decide, by decide⟩

/-- Appending a digit multiplies the value by ten and adds it. -/
theorem digitsVal_append (l : List Nat) (d : Nat) :
    digitsVal (l ++ [d]) = digitsVal l * 10 + d := by
  unfold digitsVal
  rw [List.foldl_append]
  rfl

/-- With enough fuel, the digit rendering is exact. -/
theorem digitsVal_decDigitsAux :
    ∀ fuel n, n < fuel → digitsVal (decDigitsAux fuel n) = n := by
  intro fuel
  induction fuel with
  | zero => intro n h; exact absurd h (Nat.not_lt_zero n)
  | succ f ih =>
    intro n h
    simp only [decDigitsAux]
    split
    · simp [digitsVal]
    · rename_i h10
      rw [digitsVal_append]
      have hge : 10 ≤ n := Nat.le_of_not_lt h10
      have hdiv : n / 10 < n := Nat.div_lt_self (by omega) (by omega)
      rw [ih (n / 10) (by omega)]
      omega

/-- Every rendered digit is below ten. -/
theorem decDigitsAux_lt :
    ∀ fuel n d, d ∈ decDigitsAux fuel n → d < 10 := by
  intro fuel
  induction fuel with
  | zero => intro n d h; exact absurd h (List.not_mem_nil d)
  | succ f ih =>
    intro n d h
    simp only [decDigitsAux] at h
    split at h
    · rename_i hlt
      simp only [List.mem_cons, List.not_mem_nil, or_false] at h
      omega
    · rw [List.mem_append] at h
      rcases h with h | h
      · exact ih _ _ h
      · simp only [List.mem_cons, List.not_mem_nil, or_false] at h
        subst h
        exact Nat.mod_lt n (by omega)

/-- Digit characters are distinct for distinct digits. -/
theorem digitChar_inj :
    ∀ d1, d1 < 10 → ∀ d2, d2 < 10 →
      Char.ofNat (48 + d1) = Char.ofNat (48 + d2) → d1 = d2 := by
  decide

/-- Mapping digits below ten to characters is injective. -/
theorem map_digitChar_inj :
    ∀ l1 l2 : List Nat, (∀ d ∈ l1, d < 10) → (∀ d ∈ l2, d < 10) →
      l1.map (fun d => Char.ofNat (48 + d)) = l2.map (fun d => Char.ofNat (48 + d)) →
      l1 = l2 := by
  intro l1
  induction l1 with
  | nil =>
    intro l2 _ _ h
    cases l2 with
    | nil => rfl
    | cons d2 t2 => simp at h
  | cons d1 t1 ih =>
    intro l2 h1 h2 h
    cases l2 with
    | nil => simp at h
    | cons d2 t2 =>
      simp only [List.map_cons, List.cons.injEq] at h
      have hd : d1 = d2 :=
        digitChar_inj d1 (h1 d1 (by simp)) d2 (h2 d2 (by simp)) h.1
      rw [hd, ih t2 (fun d hd1 => h1 d (by simp [hd1]))
        (fun d hd2 => h2 d (by simp [hd2])) h.2]

/-- The decimal rendering is injective. -/
theorem natToDec_inj (m n : Nat) (h : natToDec m = natToDec n) : m = n := by
  have hl : (decDigitsAux (m + 1) m).map (fun d => Char.ofNat (48 + d))
      = (decDigitsAux (n + 1) n).map (fun d => Char.ofNat (48 + d)) :=
    congrArg String.data h
  have hdig := map_digitChar_inj _ _
    (fun d hd => decDigitsAux_lt _ _ _ hd)
    (fun d hd => decDigitsAux_lt _ _ _ hd) hl
  have h1 := digitsVal_decDigitsAux (m + 1) m (Nat.lt_succ_self m)
  have h2 := digitsVal_decDigitsAux (n + 1) n (Nat.lt_succ_self n)
  rw [← h1, ← h2, hdig]

/-- Distinct timestamps give distinct round identifiers. -/
theorem roundStateStr_inj (n1 n2 : Nat) (h : n1 ≠ n2) :
    roundStateStr n1 ≠ roundStateStr n2 := by
  intro hEq
  apply h
  apply natToDec_inj
  have hdata : ("round-" ++ natToDec n1).data = ("round-" ++ natToDec n2).data :=
    congrArg String.data hEq
  rw [String.data_append, String.data_append] at hdata
  exact String.ext (List.append_cancel_left hdata)

/-- C9 amended: the opaque round identifier is the string round- followed
by the decimal Date.now() reading, so the identifiers of two round
starts are distinct whenever the two Date.now() readings differ; two
starts within the same millisecond share one identifier (see the
counterexample). -/
theorem C9_round_ids_distinct (r1 r2 : MultiplayerRoom) (u1 u2 n1 n2 s1 s2 : Nat)
    (h1 : r1.master = some u1) (h2 : r2.master = some u2) (hn : n1 ≠ n2) :
    ∀ a ∈ (r1.handleCommand u1 (Command.updateStatus RoomStatus.playing) n1 s1).2.filterMap
        startRoundState,
    ∀ b ∈ (r2.handleCommand u2 (Command.updateStatus RoomStatus.playing) n2 s2).2.filterMap
        startRoundState, a ≠ b := by
  have hev : ∀ (r : MultiplayerRoom) (u n s : Nat), r.master = some u →
      (r.handleCommand u (Command.updateStatus RoomStatus.playing) n s).2.filterMap
        startRoundState = [roundStateStr n] := by
    intro r u n s hm
    simp only [MultiplayerRoom.handleCommand, if_pos hm, if_pos rfl]
    rfl
  intro a ha b hb
  rw [hev r1 u1 n1 s1 h1] at ha
  rw [hev r2 u2 n2 s2 h2] at hb
  simp only [List.mem_cons, List.not_mem_nil, or_false] at ha hb
  subst ha
  subst hb
  exact roundStateStr_inj n1 n2 hn

/-- Witness for C9 amended: round starts at milliseconds 100 and 101
from demoRoomA produce the distinct identifiers round-100, round-101. -/
theorem C9_round_ids_distinct_witness :
    demoRoomA.master = some 1 ∧ (100 : Nat) ≠ 101 ∧
    ("round-100" : String) ≠ "round-101" :=
  ⟨by decide, by decide,
   C9_round_ids_distinct demoRoomA demoRoomA 1 1 100 101 7 9
     (by decide) (by decide) (by decide)
     "round-100" (by decide) "round-101" (by decide)⟩

/-- Counterexample to C9 as stated: in the run sameMillisOps the master
performs two consecutive selecting-to-playing transitions whose
Date.now() readings are both 100; the two startRound broadcasts carry
the identical identifier round-100. -/
theorem C9_counterexample :
    (runEvents (initRoom "room" "Room") sameMillisOps).2.filterMap startRoundState
      = ["round-100", "round-100"] := by
  decide
